import Mathlib

/-!
Verification development for the Lex_Vision CCTV backend
(`src/backend/backend.py`).  The definitions below are a shallow
embedding of the in-memory data model and of the operations that
mutate it: the attendance log, the alert log with its offline-camera
sweep and unknown-face burst counter, the camera registry and health
monitor, the per-stream frame loop, the camera-open procedures and the
face recognizer.  Timestamps are modelled as natural numbers (seconds
of a monotone clock); Python dictionaries are modelled as association
lists in insertion order.
-/

namespace LexVision

/-- `AttendanceRecord` pydantic model (backend.py lines 629-634).
The ISO timestamp string is modelled as a `Nat` clock value. -/
structure AttendanceRecord where
  employee_id : String
  name : String
  timestamp : Nat
  camera_id : Option String
  entry_type : Option String
deriving DecidableEq

/-- `Alert` pydantic model (backend.py lines 636-647). -/
structure Alert where
  id : String
  title : String
  description : String
  severity : String
  category : String
  status : String
  timestamp : Nat
  acknowledgedBy : Option String
  acknowledgedAt : Option Nat
  location : Option String
  cameraId : Option String
deriving DecidableEq

/-- `CameraConfig` pydantic model (backend.py lines 649-653). -/
structure CameraConfig where
  id : String
  name : String
  role : String
  status : String
deriving DecidableEq

/-- The Python idiom `if len(xs) > cap: del xs[cap:]` that keeps a
list capped at `cap` elements. -/
def capTruncate (cap : Nat) (l : List α) : List α :=
  if l.length > cap then l.take cap else l

/-- One attendance insertion as performed by `create_attendance`
(lines 1268-1273), by the `/process_frame` handler (lines 1208-1211)
and by the face branch of the stream pipeline (lines 1044-1052):
insert at the head, then truncate to 1000 records. -/
def attendanceInsert (r : AttendanceRecord) (att : List AttendanceRecord) :
    List AttendanceRecord :=
  capTruncate 1000 (r :: att)

/-- The body branch of the stream pipeline (lines 1055-1065): one
`Unknown` record is inserted at the head per detected body, and the
list is truncated to 1000 once after the loop. -/
def attendanceInsertBodies (rs : List AttendanceRecord)
    (att : List AttendanceRecord) : List AttendanceRecord :=
  capTruncate 1000 (rs.foldl (fun acc r => r :: acc) att)

/-- The attendance list is ordered newest first: timestamps never
increase along the list. -/
def newestFirst (l : List AttendanceRecord) : Prop :=
  l.Chain' (fun a b => b.timestamp ≤ a.timestamp)

theorem capTruncate_length_le (cap : Nat) (l : List α) :
    (capTruncate cap l).length ≤ cap := by
  unfold capTruncate
  split
  · exact l.length_take_le cap
  · omega

theorem capTruncate_sublist (cap : Nat) (l : List α) :
    (capTruncate cap l).Sublist l := by
  unfold capTruncate
  split
  · exact List.take_sublist cap l
  · exact List.Sublist.refl l

theorem capTruncate_head? (cap : Nat) (hcap : 0 < cap) (x : α) (l : List α) :
    (capTruncate cap (x :: l)).head? = some x := by
  unfold capTruncate
  split
  · cases cap with
    | zero => omega
    | succ n => rfl
  · rfl

theorem capTruncate_chain' (cap : Nat) (R : α → α → Prop) (l : List α)
    (h : l.Chain' R) : (capTruncate cap l).Chain' R := by
  unfold capTruncate
  split
  · exact h.take cap
  · exact h

theorem attendanceInsert_length_le (r : AttendanceRecord)
    (att : List AttendanceRecord) :
    (attendanceInsert r att).length ≤ 1000 :=
  capTruncate_length_le 1000 (r :: att)

theorem attendanceInsert_head (r : AttendanceRecord)
    (att : List AttendanceRecord) :
    (attendanceInsert r att).head? = some r :=
  capTruncate_head? 1000 (by omega) r att

theorem attendanceInsert_newestFirst (r : AttendanceRecord)
    (att : List AttendanceRecord) (hs : newestFirst att)
    (hn : ∀ x ∈ att, x.timestamp ≤ r.timestamp) :
    newestFirst (attendanceInsert r att) := by
  apply capTruncate_chain'
  apply List.chain'_cons'.mpr
  constructor
  · intro y hy
    exact hn y (List.mem_of_mem_head? hy)
  · exact hs

/-- Folding head-insertions over `rs` produces `rs.reverse ++ att`
(as the Python loop of `insert(0, ...)` calls does). -/
theorem foldl_cons_eq_reverse_append (rs att : List α) :
    rs.foldl (fun acc r => r :: acc) att = rs.reverse ++ att := by
  induction rs generalizing att with
  | nil => simp
  | cons x xs ih =>
    simp [List.foldl_cons, ih (x :: att)]

theorem attendanceInsertBodies_length_le (rs att : List AttendanceRecord) :
    (attendanceInsertBodies rs att).length ≤ 1000 :=
  capTruncate_length_le 1000 _

theorem attendanceInsertBodies_head (rs att : List AttendanceRecord)
    (hne : rs ≠ []) :
    (attendanceInsertBodies rs att).head? = rs.getLast? := by
  unfold attendanceInsertBodies
  rw [foldl_cons_eq_reverse_append]
  obtain ⟨x, xs, hx⟩ := List.exists_cons_of_ne_nil
    (show rs.reverse ≠ [] from fun hcon =>
      hne (List.reverse_eq_nil_iff.mp hcon))
  rw [hx, List.cons_append, capTruncate_head? 1000 (by omega)]
  rw [← List.head?_reverse, hx, List.head?_cons]

theorem attendanceInsertBodies_newestFirst (rs att : List AttendanceRecord)
    (hs : newestFirst att)
    (hrs : rs.Chain' (fun a b => a.timestamp ≤ b.timestamp))
    (hall : ∀ x ∈ rs, ∀ y ∈ att, y.timestamp ≤ x.timestamp) :
    newestFirst (attendanceInsertBodies rs att) := by
  unfold attendanceInsertBodies
  rw [foldl_cons_eq_reverse_append]
  apply capTruncate_chain'
  apply List.chain'_append.mpr
  refine ⟨?_, hs, ?_⟩
  · rw [List.chain'_reverse]
    exact hrs
  · intro x hx y hy
    apply hall
    · exact List.mem_reverse.mp (List.mem_of_mem_getLast? hx)
    · exact List.mem_of_mem_head? hy

/-- C1: after each attendance-inserting operation (per-stream pipeline
face branch, per-stream pipeline body branch, `/process_frame`, and
`POST /attendance` — the first, third and fourth all perform single
head-insertions `attendanceInsert`, the second performs the bulk
insertion `attendanceInsertBodies`), the attendance list has at most
1000 entries, the newly inserted record sits at the head, and the
newest-first order is preserved. -/
theorem C1_attendance_cap_head_order
    (r : AttendanceRecord) (rs att : List AttendanceRecord)
    (hs : newestFirst att)
    (hn : ∀ x ∈ att, x.timestamp ≤ r.timestamp)
    (hne : rs ≠ [])
    (hrs : rs.Chain' (fun a b => a.timestamp ≤ b.timestamp))
    (hall : ∀ x ∈ rs, ∀ y ∈ att, y.timestamp ≤ x.timestamp) :
    (attendanceInsert r att).length ≤ 1000 ∧
    (attendanceInsert r att).head? = some r ∧
    newestFirst (attendanceInsert r att) ∧
    (attendanceInsertBodies rs att).length ≤ 1000 ∧
    (attendanceInsertBodies rs att).head? = rs.getLast? ∧
    newestFirst (attendanceInsertBodies rs att) :=
  ⟨attendanceInsert_length_le r att,
   attendanceInsert_head r att,
   attendanceInsert_newestFirst r att hs hn,
   attendanceInsertBodies_length_le rs att,
   attendanceInsertBodies_head rs att hne,
   attendanceInsertBodies_newestFirst rs att hs hrs hall⟩

/-- A concrete record used by witnesses. -/
def sampleRecord (ts : Nat) : AttendanceRecord :=
  { employee_id := "Unknown", name := "Unknown", timestamp := ts,
    camera_id := some "CAM-0", entry_type := none }

/-- Witness for C1 at a concrete input. -/
theorem C1_witness :
    (newestFirst [sampleRecord 1] ∧
      (∀ x ∈ [sampleRecord 1], x.timestamp ≤ (sampleRecord 2).timestamp) ∧
      ([sampleRecord 2, sampleRecord 3] ≠ ([] : List AttendanceRecord)) ∧
      ([sampleRecord 2, sampleRecord 3].Chain'
        (fun a b => a.timestamp ≤ b.timestamp)) ∧
      (∀ x ∈ [sampleRecord 2, sampleRecord 3], ∀ y ∈ [sampleRecord 1],
        y.timestamp ≤ x.timestamp)) ∧
    ((attendanceInsert (sampleRecord 2) [sampleRecord 1]).length ≤ 1000 ∧
     (attendanceInsert (sampleRecord 2) [sampleRecord 1]).head? =
        some (sampleRecord 2) ∧
     newestFirst (attendanceInsert (sampleRecord 2) [sampleRecord 1]) ∧
     (attendanceInsertBodies [sampleRecord 2, sampleRecord 3]
        [sampleRecord 1]).length ≤ 1000 ∧
     (attendanceInsertBodies [sampleRecord 2, sampleRecord 3]
        [sampleRecord 1]).head? =
        [sampleRecord 2, sampleRecord 3].getLast? ∧
     newestFirst (attendanceInsertBodies [sampleRecord 2, sampleRecord 3]
        [sampleRecord 1])) :=
  ⟨⟨by simp [newestFirst, sampleRecord],
    by simp [sampleRecord],
    by simp,
    by simp [sampleRecord],
    by simp [sampleRecord]⟩,
   C1_attendance_cap_head_order (sampleRecord 2)
     [sampleRecord 2, sampleRecord 3] [sampleRecord 1]
     (by simp [newestFirst, sampleRecord])
     (by simp [sampleRecord])
     (by simp)
     (by simp [sampleRecord])
     (by simp [sampleRecord])⟩

/-! ### Association lists (Python dicts in insertion order) -/

/-- First-match lookup in an association list (Python `d.get(k)` /
`k in d`). -/
def alook [DecidableEq κ] (k : κ) : List (κ × β) → Option β
  | [] => none
  | p :: ps => if p.1 = k then some p.2 else alook k ps

/-- Update every binding of key `k` in place (Python mutating an
existing dict entry; identity when the key is absent). -/
def amod [DecidableEq κ] (k : κ) (f : β → β) (m : List (κ × β)) :
    List (κ × β) :=
  m.map (fun p => if p.1 = k then (p.1, f p.2) else p)

theorem alook_amod_self [DecidableEq κ] (k : κ) (f : β → β)
    (m : List (κ × β)) : alook k (amod k f m) = (alook k m).map f := by
  induction m with
  | nil => rfl
  | cons p ps ih =>
    by_cases h : p.1 = k
    · simp [amod, alook, h]
    · simp only [amod, List.map_cons, if_neg h] at ih ⊢
      simp only [alook, if_neg h]
      exact ih

theorem alook_amod_other [DecidableEq κ] {k k' : κ} (hne : k' ≠ k)
    (f : β → β) (m : List (κ × β)) : alook k (amod k' f m) = alook k m := by
  induction m with
  | nil => rfl
  | cons p ps ih =>
    by_cases h : p.1 = k'
    · simp [alook, amod, h, hne]
      simpa [amod] using ih
    · by_cases h2 : p.1 = k
      · simp [alook, amod, h, h2, Ne.symm hne]
      · simp [alook, amod, h, h2]
        simpa [amod] using ih

theorem alook_append_of_none [DecidableEq κ] (k : κ)
    (m l : List (κ × β)) (h : alook k m = none) :
    alook k (m ++ l) = alook k l := by
  induction m with
  | nil => rfl
  | cons p ps ih =>
    by_cases hp : p.1 = k
    · simp [alook, hp] at h
    · simp only [alook, if_neg hp] at h
      simp only [List.cons_append, alook, if_neg hp]
      exact ih h

theorem alook_filter [DecidableEq κ] (k : κ) (p : κ × β → Bool)
    (m : List (κ × β)) (hkeep : ∀ v, p (k, v) = true) :
    alook k (m.filter p) = alook k m := by
  induction m with
  | nil => rfl
  | cons q qs ih =>
    by_cases hq : q.1 = k
    · have : p q = true := by
        have := hkeep q.2
        rwa [show (k, q.2) = q from by cases q; simp_all] at this
      simp [List.filter_cons, this, alook, hq]
    · by_cases hpq : p q = true
      · simp only [List.filter_cons, hpq, if_true, alook, if_neg hq]
        exact ih
      · simp only [List.filter_cons, hpq, if_false, alook, if_neg hq,
          Bool.false_eq_true]
        exact ih

/-! ### Alert store, `_create_alert` and the offline-camera sweep -/

/-- `_create_alert` constructs an alert with status `active` and the
current timestamp (lines 1364-1377). -/
def mkAlert (id title descr severity category : String) (now : Nat)
    (location cameraId : Option String) : Alert :=
  { id := id, title := title, description := descr, severity := severity,
    category := category, status := "active", timestamp := now,
    acknowledgedBy := none, acknowledgedAt := none,
    location := location, cameraId := cameraId }

/-- Head-insertion into the alert list followed by truncation at 100
records.  This is the shared insertion discipline of `_create_alert`
(lines 1378-1380) and of the `POST /alerts` endpoint `create_alert`
(lines 1280-1285), which inserts a client-supplied alert verbatim. -/
def alertsInsert (a : Alert) (alerts : List Alert) : List Alert :=
  capTruncate 100 (a :: alerts)

/-- The dedup scan of `_check_camera_offline` (lines 1434-1438):
an alert blocks a new offline alert when it refers to the same
camera id, has category `camera` and is still `active`. -/
def isActiveCameraAlertFor (cid : String) (a : Alert) : Bool :=
  decide (a.cameraId = some cid) && decide (a.category = "camera") &&
    decide (a.status = "active")

def hasActiveCameraAlert (cid : String) (alerts : List Alert) : Bool :=
  alerts.any (isActiveCameraAlertFor cid)

/-- A camera-category alert referring to camera `cid` (any status). -/
def isCameraAlertFor (cid : String) (a : Alert) : Bool :=
  decide (a.cameraId = some cid) && decide (a.category = "camera")

/-- The alert `_check_camera_offline` emits for a stale camera
(lines 1440-1448). -/
def offlineAlert (cid : String) (now : Nat) (newId : String) : Alert :=
  mkAlert newId ("Camera Offline: " ++ cid)
    ("Camera " ++ cid ++ " has been offline for more than 2 minutes")
    "medium" "camera" now (some ("Camera " ++ cid)) (some cid)

/-- The mutable state touched by the sweep: the camera registry
`_cameras` and the alert list `_alerts`. -/
structure AlertStoreState where
  cameras : List (String × CameraConfig)
  alerts : List Alert
deriving DecidableEq

/-- One iteration of the `_check_camera_offline` loop (lines
1423-1448) over a `(camera_id, last_seen)` entry: if the camera has
not been seen for more than 2 minutes (120 s), mark it offline in the
registry and — unless an active camera alert for it already exists —
emit a new medium-severity camera alert.  The second component is the
list of alerts emitted by this entry. -/
def sweepStep (now : Nat) (fresh : String → String) (st : AlertStoreState)
    (e : String × Nat) : AlertStoreState × List Alert :=
  if now - e.2 > 120 then
    if hasActiveCameraAlert e.1 st.alerts then
      ({ cameras := amod e.1 (fun c => { c with status := "offline" })
           st.cameras,
         alerts := st.alerts }, [])
    else
      ({ cameras := amod e.1 (fun c => { c with status := "offline" })
           st.cameras,
         alerts := alertsInsert (offlineAlert e.1 now (fresh e.1)) st.alerts },
       [offlineAlert e.1 now (fresh e.1)])
  else (st, [])

def sweepGo (now : Nat) (fresh : String → String) (st : AlertStoreState) :
    List (String × Nat) → AlertStoreState × List Alert
  | [] => (st, [])
  | e :: es =>
    ((sweepGo now fresh (sweepStep now fresh st e).1 es).1,
     (sweepStep now fresh st e).2 ++
       (sweepGo now fresh (sweepStep now fresh st e).1 es).2)

/-- `_check_camera_offline` (lines 1418-1450): iterate over a snapshot
of `_camera_last_seen`.  `fresh` supplies the uuid of a new alert. -/
def sweep (now : Nat) (fresh : String → String)
    (lastSeen : List (String × Nat)) (st : AlertStoreState) :
    AlertStoreState × List Alert :=
  sweepGo now fresh st lastSeen

/-- The alerts a sweep emitted that refer to camera `cid`. -/
def emittedFor (cid : String) (ems : List Alert) : List Alert :=
  ems.filter (isCameraAlertFor cid)

theorem alertsInsert_of_lt (a : Alert) (l : List Alert)
    (h : l.length < 100) : alertsInsert a l = a :: l := by
  unfold alertsInsert capTruncate
  split
  · next hgt => simp at hgt; omega
  · rfl

theorem alertsInsert_length_le (a : Alert) (l : List Alert) :
    (alertsInsert a l).length ≤ l.length + 1 :=
  le_trans (List.Sublist.length_le (capTruncate_sublist _ _)) (by simp)

theorem offlineAlert_matches (cid : String) (now : Nat) (newId : String) :
    isActiveCameraAlertFor cid (offlineAlert cid now newId) = true := by
  simp [isActiveCameraAlertFor, offlineAlert, mkAlert]

theorem offlineAlert_not_matches {cid c : String} (hne : c ≠ cid)
    (now : Nat) (newId : String) :
    isActiveCameraAlertFor cid (offlineAlert c now newId) = false ∧
    isCameraAlertFor cid (offlineAlert c now newId) = false := by
  constructor <;> simp [isActiveCameraAlertFor, isCameraAlertFor,
    offlineAlert, mkAlert, hne]

theorem hasActive_alertsInsert (cid : String) (a : Alert) (l : List Alert)
    (ha : isActiveCameraAlertFor cid a = true) :
    hasActiveCameraAlert cid (alertsInsert a l) = true := by
  have hmem : a ∈ alertsInsert a l := by
    apply List.mem_of_mem_head?
    rw [alertsInsert, capTruncate_head? 100 (by omega)]
    rfl
  exact List.any_eq_true.mpr ⟨a, hmem, ha⟩

theorem sweepStep_emitted_other {e : String × Nat} {cid : String}
    (hne : e.1 ≠ cid) (now : Nat) (fresh : String → String)
    (st : AlertStoreState) :
    emittedFor cid (sweepStep now fresh st e).2 = [] := by
  unfold sweepStep
  split
  · split
    · rfl
    · simp [emittedFor, (offlineAlert_not_matches hne now (fresh e.1)).2]
  · rfl

theorem sweepStep_no_insert_of_active {e : String × Nat}
    (now : Nat) (fresh : String → String) (st : AlertStoreState)
    (hact : hasActiveCameraAlert e.1 st.alerts = true) :
    (sweepStep now fresh st e).1.alerts = st.alerts ∧
    (sweepStep now fresh st e).2 = [] := by
  unfold sweepStep
  by_cases hst : now - e.2 > 120
  · rw [if_pos hst, if_pos hact]
    exact ⟨rfl, rfl⟩
  · rw [if_neg hst]
    exact ⟨rfl, rfl⟩

theorem sweepStep_target_emitted (now : Nat) (fresh : String → String)
    (st : AlertStoreState) (cid : String) (ts : Nat)
    (hstale : now - ts > 120) :
    (emittedFor cid (sweepStep now fresh st (cid, ts)).2).length =
      (if hasActiveCameraAlert cid st.alerts then 0 else 1) := by
  unfold sweepStep
  rw [if_pos (show now - (cid, ts).2 > 120 from hstale)]
  split
  · next h => simp only [h, if_true]; rfl
  · next h =>
    rw [Bool.not_eq_true] at h
    simp only [h, Bool.false_eq_true, if_false]
    simp [emittedFor, isCameraAlertFor, offlineAlert, mkAlert]

theorem sweepStep_target_active (now : Nat) (fresh : String → String)
    (st : AlertStoreState) (cid : String) (ts : Nat)
    (hstale : now - ts > 120) :
    hasActiveCameraAlert cid (sweepStep now fresh st (cid, ts)).1.alerts
      = true := by
  unfold sweepStep
  rw [if_pos (show now - (cid, ts).2 > 120 from hstale)]
  split
  · next h => exact h
  · exact hasActive_alertsInsert cid _ _ (offlineAlert_matches cid now _)

theorem sweepStep_other_active {e : String × Nat} {cid : String}
    (hne : e.1 ≠ cid) (now : Nat) (fresh : String → String)
    (st : AlertStoreState) (hlen : st.alerts.length < 100) :
    hasActiveCameraAlert cid (sweepStep now fresh st e).1.alerts =
      hasActiveCameraAlert cid st.alerts := by
  unfold sweepStep
  split
  · split
    · rfl
    · show hasActiveCameraAlert cid (alertsInsert _ st.alerts) = _
      rw [alertsInsert_of_lt _ _ hlen]
      simp [hasActiveCameraAlert,
        (offlineAlert_not_matches hne now (fresh e.1)).1]
  · rfl

theorem sweepStep_alerts_length (now : Nat) (fresh : String → String)
    (st : AlertStoreState) (e : String × Nat) :
    (sweepStep now fresh st e).1.alerts.length ≤ st.alerts.length + 1 := by
  unfold sweepStep
  split
  · split
    · simp
    · exact alertsInsert_length_le _ _
  · simp

theorem sweepStep_emitted_cases (now : Nat) (fresh : String → String)
    (st : AlertStoreState) (e : String × Nat) :
    (sweepStep now fresh st e).2 = [] ∨
    (sweepStep now fresh st e).2 = [offlineAlert e.1 now (fresh e.1)] := by
  unfold sweepStep
  split
  · split
    · exact Or.inl rfl
    · exact Or.inr rfl
  · exact Or.inl rfl

theorem sweepStep_cameras_other {e : String × Nat} {cid : String}
    (hne : e.1 ≠ cid) (now : Nat) (fresh : String → String)
    (st : AlertStoreState) :
    alook cid (sweepStep now fresh st e).1.cameras =
      alook cid st.cameras := by
  unfold sweepStep
  by_cases hst : now - e.2 > 120
  · by_cases hact : hasActiveCameraAlert e.1 st.alerts = true
    · rw [if_pos hst, if_pos hact]
      dsimp only
      exact alook_amod_other hne _ _
    · rw [if_pos hst, if_neg hact]
      dsimp only
      exact alook_amod_other hne _ _
  · rw [if_neg hst]

theorem sweepStep_cameras_target (now : Nat) (fresh : String → String)
    (st : AlertStoreState) (cid : String) (ts : Nat)
    (hstale : now - ts > 120) :
    alook cid (sweepStep now fresh st (cid, ts)).1.cameras =
      (alook cid st.cameras).map (fun c => { c with status := "offline" }) := by
  unfold sweepStep
  rw [if_pos (show now - (cid, ts).2 > 120 from hstale)]
  by_cases hact : hasActiveCameraAlert (cid, ts).1 st.alerts = true
  · rw [if_pos hact]
    dsimp only
    exact alook_amod_self cid _ st.cameras
  · rw [if_neg hact]
    dsimp only
    exact alook_amod_self cid _ st.cameras

theorem sweepGo_alerts_length (now : Nat) (fresh : String → String) :
    ∀ (es : List (String × Nat)) (st : AlertStoreState),
    (sweepGo now fresh st es).1.alerts.length ≤ st.alerts.length + es.length
  | [], st => by simp [sweepGo]
  | e :: es, st => by
    have h1 := sweepStep_alerts_length now fresh st e
    have h2 := sweepGo_alerts_length now fresh es (sweepStep now fresh st e).1
    simp only [sweepGo, List.length_cons]
    omega

theorem sweepGo_other (now : Nat) (fresh : String → String) (cid : String) :
    ∀ (es : List (String × Nat)) (st : AlertStoreState),
    (∀ p ∈ es, p.1 ≠ cid) →
    st.alerts.length + es.length ≤ 100 →
    emittedFor cid (sweepGo now fresh st es).2 = [] ∧
    hasActiveCameraAlert cid (sweepGo now fresh st es).1.alerts =
      hasActiveCameraAlert cid st.alerts
  | [], st => fun _ _ => ⟨rfl, rfl⟩
  | e :: es, st => by
    intro hkeys hbud
    have hne : e.1 ≠ cid := hkeys e (by simp)
    have hlen : st.alerts.length < 100 := by
      simp only [List.length_cons] at hbud; omega
    have hstep := sweepStep_alerts_length now fresh st e
    have ihr := sweepGo_other now fresh cid es (sweepStep now fresh st e).1
      (fun p hp => hkeys p (List.mem_cons_of_mem e hp))
      (by simp only [List.length_cons] at hbud; omega)
    constructor
    · simp only [sweepGo, emittedFor, List.filter_append]
      rw [show (sweepStep now fresh st e).2.filter (isCameraAlertFor cid) =
            emittedFor cid (sweepStep now fresh st e).2 from rfl,
          sweepStep_emitted_other hne now fresh st]
      simpa [emittedFor] using ihr.1
    · simp only [sweepGo]
      rw [ihr.2, sweepStep_other_active hne now fresh st hlen]

theorem sweepGo_no_emit_of_active (now : Nat) (fresh : String → String)
    (cid : String) :
    ∀ (es : List (String × Nat)) (st : AlertStoreState),
    hasActiveCameraAlert cid st.alerts = true →
    st.alerts.length + es.length ≤ 100 →
    emittedFor cid (sweepGo now fresh st es).2 = []
  | [], st => fun _ _ => rfl
  | e :: es, st => by
    intro hact hbud
    have hlen : st.alerts.length < 100 := by
      simp only [List.length_cons] at hbud; omega
    have hstep := sweepStep_alerts_length now fresh st e
    simp only [sweepGo, emittedFor, List.filter_append]
    by_cases hce : e.1 = cid
    · have hactE : hasActiveCameraAlert e.1 st.alerts = true := by
        rw [hce]; exact hact
      obtain ⟨hal, hem⟩ := sweepStep_no_insert_of_active now fresh st hactE
      rw [hem]
      have ihr := sweepGo_no_emit_of_active now fresh cid es
        (sweepStep now fresh st e).1
        (by rw [hal]; exact hact)
        (by rw [hal]; simp only [List.length_cons] at hbud; omega)
      simpa [emittedFor] using ihr
    · rw [show (sweepStep now fresh st e).2.filter (isCameraAlertFor cid) =
            emittedFor cid (sweepStep now fresh st e).2 from rfl,
          sweepStep_emitted_other hce now fresh st]
      have ihr := sweepGo_no_emit_of_active now fresh cid es
        (sweepStep now fresh st e).1
        (by rw [sweepStep_other_active hce now fresh st hlen]; exact hact)
        (by simp only [List.length_cons] at hbud; omega)
      simpa [emittedFor] using ihr

theorem sweepGo_target (now : Nat) (fresh : String → String)
    (cid : String) (ts : Nat) :
    ∀ (es : List (String × Nat)) (st : AlertStoreState),
    (es.map Prod.fst).Nodup →
    st.alerts.length + es.length ≤ 100 →
    (cid, ts) ∈ es → now - ts > 120 →
    (emittedFor cid (sweepGo now fresh st es).2).length =
        (if hasActiveCameraAlert cid st.alerts then 0 else 1) ∧
    hasActiveCameraAlert cid (sweepGo now fresh st es).1.alerts = true
  | [], st => by intro _ _ hmem _; cases hmem
  | e :: es, st => by
    intro hnd hbud hmem hstale
    have hlen : st.alerts.length < 100 := by
      simp only [List.length_cons] at hbud; omega
    have hstep := sweepStep_alerts_length now fresh st e
    have hbud2 : (sweepStep now fresh st e).1.alerts.length + es.length
        ≤ 100 := by simp only [List.length_cons] at hbud; omega
    rcases List.mem_cons.mp hmem with heq | hmem2
    · -- `e` is the entry for our camera
      have he : e = (cid, ts) := heq.symm
      subst he
      have hkeys : ∀ p ∈ es, p.1 ≠ cid := by
        intro p hp hcon
        have : cid ∈ es.map Prod.fst := List.mem_map.mpr ⟨p, hp, hcon⟩
        have hni := (List.nodup_cons.mp hnd).1
        exact hni this
      have hoth := sweepGo_other now fresh cid es
        (sweepStep now fresh st (cid, ts)).1 hkeys hbud2
      constructor
      · simp only [sweepGo, emittedFor, List.filter_append,
          List.length_append]
        rw [show (sweepGo now fresh (sweepStep now fresh st (cid, ts)).1
              es).2.filter (isCameraAlertFor cid) =
            emittedFor cid (sweepGo now fresh
              (sweepStep now fresh st (cid, ts)).1 es).2 from rfl,
          hoth.1]
        have := sweepStep_target_emitted now fresh st cid ts hstale
        simpa [emittedFor] using this
      · simp only [sweepGo]
        rw [hoth.2, sweepStep_target_active now fresh st cid ts hstale]
    · -- our camera's entry is further down the list
      have hne : e.1 ≠ cid := by
        intro hcon
        have hmemk : cid ∈ es.map Prod.fst :=
          List.mem_map.mpr ⟨(cid, ts), hmem2, rfl⟩
        have hni := (List.nodup_cons.mp hnd).1
        rw [hcon] at hni
        exact hni hmemk
      have ihr := sweepGo_target now fresh cid ts es
        (sweepStep now fresh st e).1
        (List.nodup_cons.mp hnd).2 hbud2 hmem2 hstale
      constructor
      · simp only [sweepGo, emittedFor, List.filter_append,
          List.length_append]
        rw [show (sweepStep now fresh st e).2.filter
              (isCameraAlertFor cid) =
            emittedFor cid (sweepStep now fresh st e).2 from rfl,
          sweepStep_emitted_other hne now fresh st]
        have h2 := ihr.1
        rw [sweepStep_other_active hne now fresh st hlen] at h2
        simpa [emittedFor] using h2
      · simp only [sweepGo]
        exact ihr.2

theorem sweepGo_emitted_shape (now : Nat) (fresh : String → String) :
    ∀ (es : List (String × Nat)) (st : AlertStoreState),
    ∀ a ∈ (sweepGo now fresh st es).2, ∃ c, a = offlineAlert c now (fresh c)
  | [], _ => by intro a ha; cases ha
  | e :: es, st => by
    intro a ha
    simp only [sweepGo, List.mem_append] at ha
    rcases ha with hstep | hrest
    · rcases sweepStep_emitted_cases now fresh st e with hc | hc
      · rw [hc] at hstep; cases hstep
      · rw [hc] at hstep
        rcases List.mem_singleton.mp hstep with rfl
        exact ⟨e.1, rfl⟩
    · exact sweepGo_emitted_shape now fresh es _ a hrest

theorem sweepGo_cameras_other (now : Nat) (fresh : String → String)
    (cid : String) :
    ∀ (es : List (String × Nat)) (st : AlertStoreState),
    (∀ p ∈ es, p.1 ≠ cid) →
    alook cid (sweepGo now fresh st es).1.cameras = alook cid st.cameras
  | [], _ => fun _ => rfl
  | e :: es, st => by
    intro hkeys
    simp only [sweepGo]
    rw [sweepGo_cameras_other now fresh cid es _
        (fun p hp => hkeys p (List.mem_cons_of_mem e hp)),
      sweepStep_cameras_other (hkeys e (by simp)) now fresh st]

theorem sweepGo_cameras_target (now : Nat) (fresh : String → String)
    (cid : String) (ts : Nat) :
    ∀ (es : List (String × Nat)) (st : AlertStoreState),
    (es.map Prod.fst).Nodup →
    (cid, ts) ∈ es → now - ts > 120 →
    alook cid (sweepGo now fresh st es).1.cameras =
      (alook cid st.cameras).map (fun c => { c with status := "offline" })
  | [], _ => by intro _ hmem; cases hmem
  | e :: es, st => by
    intro hnd hmem hstale
    rcases List.mem_cons.mp hmem with heq | hmem2
    · have he : e = (cid, ts) := heq.symm
      subst he
      have hkeys : ∀ p ∈ es, p.1 ≠ cid := by
        intro p hp hcon
        exact (List.nodup_cons.mp hnd).1 (List.mem_map.mpr ⟨p, hp, hcon⟩)
      simp only [sweepGo]
      rw [sweepGo_cameras_other now fresh cid es _ hkeys,
        sweepStep_cameras_target now fresh st cid ts hstale]
    · have hne : e.1 ≠ cid := by
        intro hcon
        have hmemk : cid ∈ es.map Prod.fst :=
          List.mem_map.mpr ⟨(cid, ts), hmem2, rfl⟩
        have hni := (List.nodup_cons.mp hnd).1
        rw [hcon] at hni
        exact hni hmemk
      simp only [sweepGo]
      rw [sweepGo_cameras_target now fresh cid ts es _
          (List.nodup_cons.mp hnd).2 hmem2 hstale,
        sweepStep_cameras_other hne now fresh st]

/-- C2: a sweep at time `now` over a snapshot of `_camera_last_seen`
with duplicate-free keys, for a camera `cid` whose last-seen age
exceeds 2 minutes: the camera's registry entry (if any) is forced to
status `offline`; exactly one new `camera` alert is emitted for `cid`
unless an active camera alert for `cid` already exists, in which case
none is; every emitted alert is a medium-severity active camera alert;
after the sweep an active camera alert for `cid` exists, and hence a
second sweep (before that alert is resolved) emits no duplicate for
`cid`.  The arithmetic side conditions keep the 100-alert cap from
truncating during the sweeps, so that the dedup scan is stable. -/
theorem C2_sweep_offline_dedup
    (now now₂ : Nat) (fresh fresh₂ : String → String)
    (lastSeen lastSeen₂ : List (String × Nat)) (st : AlertStoreState)
    (cid : String) (ts : Nat)
    (hnd : (lastSeen.map Prod.fst).Nodup)
    (hmem : (cid, ts) ∈ lastSeen)
    (hstale : now - ts > 120)
    (hbud : st.alerts.length + lastSeen.length ≤ 100) :
    alook cid (sweep now fresh lastSeen st).1.cameras
      = (alook cid st.cameras).map (fun c => { c with status := "offline" }) ∧
    (emittedFor cid (sweep now fresh lastSeen st).2).length
      = (if hasActiveCameraAlert cid st.alerts then 0 else 1) ∧
    (∀ a ∈ (sweep now fresh lastSeen st).2,
        a.severity = "medium" ∧ a.category = "camera" ∧
          a.status = "active") ∧
    hasActiveCameraAlert cid (sweep now fresh lastSeen st).1.alerts
      = true ∧
    ((sweep now fresh lastSeen st).1.alerts.length + lastSeen₂.length ≤ 100 →
      emittedFor cid
        (sweep now₂ fresh₂ lastSeen₂ (sweep now fresh lastSeen st).1).2
        = []) := by
  have htgt := sweepGo_target now fresh cid ts lastSeen st hnd hbud
    hmem hstale
  refine ⟨?_, htgt.1, ?_, htgt.2, ?_⟩
  · exact sweepGo_cameras_target now fresh cid ts lastSeen st hnd
      hmem hstale
  · intro a ha
    obtain ⟨c, rfl⟩ := sweepGo_emitted_shape now fresh lastSeen st a ha
    exact ⟨rfl, rfl, rfl⟩
  · intro hbud2
    exact sweepGo_no_emit_of_active now₂ fresh₂ cid lastSeen₂ _
      htgt.2 hbud2

/-- A concrete camera configuration used by witnesses. -/
def sampleCamera : CameraConfig :=
  { id := "CAM-0", name := "Camera 0", role := "none", status := "online" }

/-- Witness for C2 at a concrete input: one camera, last seen at
time 0, swept at time 121 and again at time 242. -/
theorem C2_witness :
    ((([("CAM-0", (0 : Nat))].map Prod.fst).Nodup) ∧
      ("CAM-0", (0 : Nat)) ∈ [("CAM-0", (0 : Nat))] ∧
      121 - 0 > 120 ∧
      (([] : List Alert).length + [("CAM-0", (0 : Nat))].length ≤ 100)) ∧
    (alook "CAM-0" (sweep 121 (fun _ => "u1") [("CAM-0", 0)]
        ⟨[("CAM-0", sampleCamera)], []⟩).1.cameras
      = (alook "CAM-0" [("CAM-0", sampleCamera)]).map
          (fun c => { c with status := "offline" }) ∧
     (emittedFor "CAM-0" (sweep 121 (fun _ => "u1") [("CAM-0", 0)]
        ⟨[("CAM-0", sampleCamera)], []⟩).2).length
      = (if hasActiveCameraAlert "CAM-0" ([] : List Alert) then 0 else 1) ∧
     (∀ a ∈ (sweep 121 (fun _ => "u1") [("CAM-0", 0)]
        ⟨[("CAM-0", sampleCamera)], []⟩).2,
        a.severity = "medium" ∧ a.category = "camera" ∧
          a.status = "active") ∧
     hasActiveCameraAlert "CAM-0" (sweep 121 (fun _ => "u1") [("CAM-0", 0)]
        ⟨[("CAM-0", sampleCamera)], []⟩).1.alerts = true ∧
     ((sweep 121 (fun _ => "u1") [("CAM-0", 0)]
        ⟨[("CAM-0", sampleCamera)], []⟩).1.alerts.length +
          [("CAM-0", (0 : Nat))].length ≤ 100 →
      emittedFor "CAM-0"
        (sweep 242 (fun _ => "u2") [("CAM-0", 0)]
          (sweep 121 (fun _ => "u1") [("CAM-0", 0)]
            ⟨[("CAM-0", sampleCamera)], []⟩).1).2 = [])) :=
  ⟨⟨by decide, by decide, by decide, by decide⟩,
   C2_sweep_offline_dedup 121 242 (fun _ => "u1") (fun _ => "u2")
     [("CAM-0", 0)] [("CAM-0", 0)] ⟨[("CAM-0", sampleCamera)], []⟩
     "CAM-0" 0 (by decide) (by decide) (by decide) (by decide)⟩

/-! ### The alert-store invariant (at most one active camera alert
per camera) and the unknown-face burst counter -/

def countActiveCameraAlerts (cid : String) (alerts : List Alert) : Nat :=
  (alerts.filter (isActiveCameraAlertFor cid)).length

/-- The claimed store invariant: at most one active camera-category
alert per camera id. -/
def alertInvariant (alerts : List Alert) : Prop :=
  ∀ cid : String, countActiveCameraAlerts cid alerts ≤ 1

theorem alertInvariant_nil : alertInvariant ([] : List Alert) :=
  fun _ => Nat.zero_le 1

theorem countActive_eq_zero_of_no_active (cid : String) (l : List Alert)
    (h : hasActiveCameraAlert cid l = false) :
    countActiveCameraAlerts cid l = 0 := by
  induction l with
  | nil => rfl
  | cons a l ih =>
    rw [hasActiveCameraAlert, List.any_cons, Bool.or_eq_false_iff] at h
    unfold countActiveCameraAlerts
    rw [List.filter_cons, if_neg (by simp [h.1])]
    exact ih h.2

theorem countActive_alertsInsert_le (cid : String) (a : Alert)
    (l : List Alert) :
    countActiveCameraAlerts cid (alertsInsert a l) ≤
      countActiveCameraAlerts cid (a :: l) :=
  List.Sublist.length_le
    (List.Sublist.filter _ (capTruncate_sublist 100 (a :: l)))

theorem alertInvariant_insert (a : Alert) (l : List Alert)
    (hinv : alertInvariant l)
    (ha : ∀ cid, isActiveCameraAlertFor cid a = true →
            hasActiveCameraAlert cid l = false) :
    alertInvariant (alertsInsert a l) := by
  intro cid
  refine le_trans (countActive_alertsInsert_le cid a l) ?_
  unfold countActiveCameraAlerts
  rw [List.filter_cons]
  by_cases hc : isActiveCameraAlertFor cid a = true
  · rw [if_pos hc]
    have h0 := countActive_eq_zero_of_no_active cid l (ha cid hc)
    unfold countActiveCameraAlerts at h0
    simp [h0]
  · rw [if_neg hc]
    exact hinv cid

theorem sweepStep_invariant (now : Nat) (fresh : String → String)
    (st : AlertStoreState) (e : String × Nat)
    (hinv : alertInvariant st.alerts) :
    alertInvariant (sweepStep now fresh st e).1.alerts := by
  unfold sweepStep
  by_cases hst : now - e.2 > 120
  · by_cases hact : hasActiveCameraAlert e.1 st.alerts = true
    · rw [if_pos hst, if_pos hact]
      exact hinv
    · rw [if_pos hst, if_neg hact]
      dsimp only
      apply alertInvariant_insert _ _ hinv
      intro cid hc
      have hcid : cid = e.1 := by
        by_contra hcc
        rw [(offlineAlert_not_matches (fun h => hcc h.symm) now
          (fresh e.1)).1] at hc
        exact Bool.false_ne_true hc
      subst hcid
      cases hval : hasActiveCameraAlert e.1 st.alerts with
      | false => rfl
      | true => exact absurd hval hact
  · rw [if_neg hst]
    exact hinv

theorem sweepGo_invariant (now : Nat) (fresh : String → String) :
    ∀ (es : List (String × Nat)) (st : AlertStoreState),
    alertInvariant st.alerts →
    alertInvariant (sweepGo now fresh st es).1.alerts
  | [], _ => fun h => h
  | e :: es, st => fun h => by
    simp only [sweepGo]
    exact sweepGo_invariant now fresh es _
      (sweepStep_invariant now fresh st e h)

/-- The minute-bucket key `now.strftime("%Y-%m-%d-%H-%M")` of
`/process_frame` (line 1217), modelled as the minute index of a
seconds clock. -/
def minuteKey (now : Nat) : Nat := now / 60

def bucketCount (m : List (Nat × Nat)) (k : Nat) : Nat :=
  (alook k m).getD 0

/-- Purge of buckets older than 5 minutes (lines 1244-1249): a key is
deleted when its minute, as a time, is before `now` minus 300 s. -/
def purgeOld (now : Nat) (m : List (Nat × Nat)) : List (Nat × Nat) :=
  m.filter (fun p => !(decide (p.1 * 60 + 300 < now)))

/-- The alert the unknown-face burst logic of `/process_frame`
(lines 1224-1242) emits, as a function of the bucket count after the
increment: a medium alert at exactly 3, a low alert at exactly 1,
nothing otherwise. -/
def unknownFaceAlert (count now : Nat) (newId : String) : Option Alert :=
  if count = 3 then
    some (mkAlert newId "Multiple Unknown Faces Detected"
      "Detected 3 unknown faces in the last minute"
      "medium" "face_recognition" now (some "Client Camera")
      (some "CLIENT-CAM"))
  else if count = 1 then
    some (mkAlert newId "Unknown Face Detected"
      "Unrecognized individual detected by camera"
      "low" "face_recognition" now (some "Client Camera")
      (some "CLIENT-CAM"))
  else none

/-- The burst-counter state: `_unknown_face_count` and `_alerts`. -/
structure BurstState where
  unknownFaceCount : List (Nat × Nat)
  alerts : List Alert
deriving DecidableEq

def applyEmitted (em : Option Alert) (alerts : List Alert) : List Alert :=
  match em with
  | some a => alertsInsert a alerts
  | none => alerts

/-- One unknown-face detection in `/process_frame` (lines 1213-1249):
initialize the current minute bucket to 0 if absent, increment it,
emit per `unknownFaceAlert`, then purge buckets older than
5 minutes. -/
def unknownFaceTick (now : Nat) (newId : String) (st : BurstState) :
    BurstState × Option Alert :=
  let k := minuteKey now
  let m1 := amod k (fun c => c + 1)
    (if (alook k st.unknownFaceCount).isSome then st.unknownFaceCount
     else st.unknownFaceCount ++ [(k, 0)])
  let em := unknownFaceAlert (bucketCount m1 k) now newId
  ({ unknownFaceCount := purgeOld now m1,
     alerts := applyEmitted em st.alerts }, em)

/-- Iterated single detections (the five-unknown-faces scenario). -/
def unknownFaceRun (st : BurstState) :
    List Nat → BurstState × List (Option Alert)
  | [] => (st, [])
  | t :: ts =>
    ((unknownFaceRun (unknownFaceTick t "uuid" st).1 ts).1,
     (unknownFaceTick t "uuid" st).2 ::
       (unknownFaceRun (unknownFaceTick t "uuid" st).1 ts).2)

theorem bucket_increment (now : Nat) (m : List (Nat × Nat)) :
    bucketCount (amod (minuteKey now) (fun c => c + 1)
      (if (alook (minuteKey now) m).isSome then m
       else m ++ [(minuteKey now, 0)])) (minuteKey now) =
    bucketCount m (minuteKey now) + 1 := by
  by_cases h : (alook (minuteKey now) m).isSome
  · rw [if_pos h]
    unfold bucketCount
    rw [alook_amod_self]
    obtain ⟨v, hv⟩ := Option.isSome_iff_exists.mp h
    rw [hv]
    rfl
  · rw [if_neg h]
    unfold bucketCount
    rw [alook_amod_self]
    have hnone : alook (minuteKey now) m = none :=
      Option.not_isSome_iff_eq_none.mp h
    rw [alook_append_of_none _ m _ hnone, hnone]
    simp [alook]

theorem bucketCount_purge_current (now : Nat) (m : List (Nat × Nat)) :
    bucketCount (purgeOld now m) (minuteKey now) =
      bucketCount m (minuteKey now) := by
  unfold bucketCount purgeOld
  rw [alook_filter]
  intro v
  simp only [Bool.not_eq_true', decide_eq_false_iff_not, minuteKey]
  omega

theorem unknownFaceTick_alerts_eq (now : Nat) (newId : String)
    (st : BurstState) :
    (unknownFaceTick now newId st).1.alerts =
      applyEmitted (unknownFaceTick now newId st).2 st.alerts := rfl

theorem unknownFaceTick_emitted_eq (now : Nat) (newId : String)
    (st : BurstState) :
    (unknownFaceTick now newId st).2 =
      unknownFaceAlert
        (bucketCount st.unknownFaceCount (minuteKey now) + 1) now newId := by
  unfold unknownFaceTick
  dsimp only
  rw [bucket_increment]

theorem unknownFaceTick_bucket (now : Nat) (newId : String)
    (st : BurstState) :
    bucketCount (unknownFaceTick now newId st).1.unknownFaceCount
        (minuteKey now) =
      bucketCount st.unknownFaceCount (minuteKey now) + 1 := by
  unfold unknownFaceTick
  dsimp only
  rw [bucketCount_purge_current, bucket_increment]

theorem unknownFaceAlert_isSome (c now : Nat) (newId : String) :
    (unknownFaceAlert c now newId).isSome = true ↔ (c = 1 ∨ c = 3) := by
  unfold unknownFaceAlert
  by_cases h3 : c = 3
  · simp [h3]
  · by_cases h1 : c = 1
    · simp [h3, h1]
    · simp [h3, h1]

theorem unknownFaceAlert_category (c now : Nat) (newId : String) (a : Alert)
    (h : unknownFaceAlert c now newId = some a) :
    a.category = "face_recognition" ∧ a.status = "active" := by
  unfold unknownFaceAlert at h
  by_cases h3 : c = 3
  · rw [if_pos h3] at h
    cases h
    exact ⟨rfl, rfl⟩
  · rw [if_neg h3] at h
    by_cases h1 : c = 1
    · rw [if_pos h1] at h
      cases h
      exact ⟨rfl, rfl⟩
    · rw [if_neg h1] at h
      cases h

theorem unknownFaceTick_invariant (now : Nat) (newId : String)
    (st : BurstState) (hinv : alertInvariant st.alerts) :
    alertInvariant (unknownFaceTick now newId st).1.alerts := by
  rw [unknownFaceTick_alerts_eq, unknownFaceTick_emitted_eq]
  cases hem : unknownFaceAlert
      (bucketCount st.unknownFaceCount (minuteKey now) + 1) now newId with
  | none => exact hinv
  | some a =>
    have hcat := (unknownFaceAlert_category _ now newId a hem).1
    show alertInvariant (alertsInsert a st.alerts)
    apply alertInvariant_insert a _ hinv
    intro cid hc
    exfalso
    unfold isActiveCameraAlertFor at hc
    simp [hcat] at hc

/-- C3 counterexample: the `POST /alerts` endpoint (`create_alert`,
lines 1280-1285) inserts client-supplied alerts verbatim, so posting
the same active camera alert twice yields two active camera alerts
for `CAM-0`, violating the claimed invariant. -/
def postedCameraAlert : Alert :=
  { id := "client-1", title := "Intruder", description := "posted twice",
    severity := "high", category := "camera", status := "active",
    timestamp := 0, acknowledgedBy := none, acknowledgedAt := none,
    location := none, cameraId := some "CAM-0" }

theorem C3_counterexample :
    ¬ alertInvariant
        (alertsInsert postedCameraAlert
          (alertsInsert postedCameraAlert [])) :=
  fun h => absurd (h "CAM-0") (by decide)

/-- C3 (amended): the at-most-one-active-camera-alert-per-camera-id
property is an invariant of the internal alert-producing operations —
the offline sweep and the unknown-face burst logic (whose alerts have
category `face_recognition`) — but not of the whole endpoint surface:
`POST /alerts` inserts arbitrary client-supplied alerts (see the
counterexample) and `PATCH /alerts` can set an arbitrary status, and
either can violate it. -/
theorem C3_invariant_internal_ops (now now' : Nat)
    (fresh : String → String) (lastSeen : List (String × Nat))
    (st : AlertStoreState) (bst : BurstState) (newId : String)
    (hs : alertInvariant st.alerts) (hb : alertInvariant bst.alerts) :
    alertInvariant (sweep now fresh lastSeen st).1.alerts ∧
    alertInvariant (unknownFaceTick now' newId bst).1.alerts :=
  ⟨sweepGo_invariant now fresh lastSeen st hs,
   unknownFaceTick_invariant now' newId bst hb⟩

/-- Witness for C3's amended theorem at a concrete input. -/
theorem C3_witness :
    alertInvariant ([] : List Alert) ∧
    (alertInvariant (sweep 121 (fun _ => "u1") [("CAM-0", 0)]
        ⟨[("CAM-0", sampleCamera)], []⟩).1.alerts ∧
     alertInvariant (unknownFaceTick 0 "u2" ⟨[], []⟩).1.alerts) :=
  ⟨alertInvariant_nil,
   C3_invariant_internal_ops 121 0 (fun _ => "u1") [("CAM-0", 0)]
     ⟨[("CAM-0", sampleCamera)], []⟩ ⟨[], []⟩ "u2"
     alertInvariant_nil alertInvariant_nil⟩

/-- C4: each unknown-face detection increments the current minute
bucket; an alert is emitted exactly when the new count is 1 (low
severity) or 3 (medium severity) and for no other count; hence five
detections within one wall-clock minute emit exactly two alerts, at
the 1st and 3rd occurrences. -/
theorem C4_unknown_face_burst (now : Nat) (newId : String)
    (st : BurstState) :
    (bucketCount (unknownFaceTick now newId st).1.unknownFaceCount
        (minuteKey now) =
      bucketCount st.unknownFaceCount (minuteKey now) + 1) ∧
    ((unknownFaceTick now newId st).2.isSome = true ↔
      (bucketCount st.unknownFaceCount (minuteKey now) + 1 = 1 ∨
       bucketCount st.unknownFaceCount (minuteKey now) + 1 = 3)) ∧
    (bucketCount st.unknownFaceCount (minuteKey now) + 1 = 1 →
      ∃ a, (unknownFaceTick now newId st).2 = some a ∧
        a.severity = "low") ∧
    (bucketCount st.unknownFaceCount (minuteKey now) + 1 = 3 →
      ∃ a, (unknownFaceTick now newId st).2 = some a ∧
        a.severity = "medium") ∧
    ((unknownFaceRun ⟨[], []⟩ [0, 10, 20, 30, 40]).2.map
        (fun em => em.map Alert.severity) =
      [some "low", none, some "medium", none, none]) := by
  refine ⟨unknownFaceTick_bucket now newId st, ?_, ?_, ?_, ?_⟩
  · rw [unknownFaceTick_emitted_eq]
    exact unknownFaceAlert_isSome _ now newId
  · intro h
    rw [unknownFaceTick_emitted_eq, h]
    exact ⟨_, rfl, rfl⟩
  · intro h
    rw [unknownFaceTick_emitted_eq, h]
    exact ⟨_, rfl, rfl⟩
  · decide

/-- Witness for C4 at a concrete input (empty bucket map, first
detection at time 0). -/
theorem C4_witness :
    (bucketCount (unknownFaceTick 0 "u" ⟨[], []⟩).1.unknownFaceCount
        (minuteKey 0) =
      bucketCount (BurstState.mk [] []).unknownFaceCount (minuteKey 0) + 1) ∧
    (unknownFaceTick 0 "u" ⟨[], []⟩).2.map Alert.severity = some "low" := by
  refine ⟨(C4_unknown_face_burst 0 "u" ⟨[], []⟩).1, ?_⟩
  obtain ⟨a, ha, hs⟩ :=
    (C4_unknown_face_burst 0 "u" ⟨[], []⟩).2.2.1 (by decide)
  rw [ha]
  simp [hs]

/-! ### The per-stream frame loop of `generate_mjpeg_for_camera` -/

/-- An abstract body box token (the pipeline only counts them). -/
abbrev Box := Nat

/-- A face recognition result: an abstract region plus the name. -/
abbrev FaceResult := Nat × String

/-- The name `_update_camera_status` gives an auto-registered camera
(lines 1391-1405). -/
def cameraNameFor (cid : String) : String :=
  if cid.startsWith "CAM-" ∧ cid ≠ "CLIENT-CAM" then
    match cid.splitOn "-" with
    | _ :: idx :: _ => "Camera " ++ idx
    | _ => "Camera " ++ cid
  else if cid = "CLIENT-CAM" then "Client Camera"
  else if cid = "SERVER-CAM" then "Server Camera"
  else "Camera " ++ cid

/-- `_update_camera_status` (lines 1385-1416): refresh the camera's
last-seen timestamp and force it online, auto-registering it with
role `none` the first time it is seen. -/
def touchCamera (cid : String) (now : Nat)
    (cams : List (String × CameraConfig)) (ls : List (String × Nat)) :
    List (String × CameraConfig) × List (String × Nat) :=
  if (alook cid cams).isSome then
    (amod cid (fun c => { c with status := "online" }) cams,
     if (alook cid ls).isSome then amod cid (fun _ => now) ls
     else ls ++ [(cid, now)])
  else
    (cams ++ [(cid, { id := cid, name := cameraNameFor cid,
                      role := "none", status := "online" })],
     if (alook cid ls).isSome then amod cid (fun _ => now) ls
     else ls ++ [(cid, now)])

/-- Entry-type resolution of the attendance block (lines 1036-1038):
the camera's currently configured role, with `"none"` mapped to no
entry type. -/
def entryTypeOf (cams : List (String × CameraConfig)) (cid : String) :
    Option String :=
  match alook cid cams with
  | some c => if c.role = "none" then none else some c.role
  | none => none

/-- The attendance record for a recognized face (lines 1041-1050):
the employee id comes from `known_face_ids` when the name is truthy
and not `"Unknown"`. -/
def faceAttendanceRecord (knownIds : List (String × String))
    (cid : String) (now : Nat) (entryType : Option String)
    (name : String) : AttendanceRecord :=
  { employee_id :=
      if name ≠ "" ∧ name ≠ "Unknown" then (alook name knownIds).getD name
      else "Unknown",
    name := if name = "" then "Unknown" else name,
    timestamp := now, camera_id := some cid, entry_type := entryType }

/-- The presence-without-identity record of the body branch
(lines 1055-1063). -/
def unknownAttendanceRecord (cid : String) (now : Nat)
    (entryType : Option String) : AttendanceRecord :=
  { employee_id := "Unknown", name := "Unknown", timestamp := now,
    camera_id := some cid, entry_type := entryType }

/-- The attendance-logging block of a sampled tick (lines 1033-1067):
one record per recognized face, else one `Unknown` record per body. -/
def attendanceBlock (knownIds : List (String × String)) (cid : String)
    (now : Nat) (cams : List (String × CameraConfig))
    (faces : List FaceResult) (boxes : List Box)
    (att : List AttendanceRecord) : List AttendanceRecord :=
  if faces ≠ [] then
    faces.foldl (fun acc fr =>
      attendanceInsert
        (faceAttendanceRecord knownIds cid now (entryTypeOf cams cid) fr.2)
        acc) att
  else if boxes ≠ [] then
    capTruncate 1000 (boxes.foldl
      (fun acc _ =>
        unknownAttendanceRecord cid now (entryTypeOf cams cid) :: acc) att)
  else att

/-- Per-stream loop state of `generate_mjpeg_for_camera`
(lines 957-962) plus the global stores the loop touches. -/
structure LoopState where
  frameSkip : Nat
  failureCount : Nat
  lastBodyBoxes : List Box
  lastFaceResults : List FaceResult
  attendance : List AttendanceRecord
  cameras : List (String × CameraConfig)
  cameraLastSeen : List (String × Nat)
deriving DecidableEq

/-- Outcome of one loop iteration: `yielded` emits a frame chunk and
continues; `skipped` continues without emitting (failed read or
failed encode); `terminated` means an exception escaped to the
stream-level handler (lines 1074-1080), which logs, releases the
capture and ends the generator. -/
inductive StreamOutcome where
  | yielded (st : LoopState)
  | skipped (st : LoopState)
  | terminated
deriving DecidableEq

/-- The unreadable-frame path (lines 969-993): count the failure and
reopen (resetting the counter) at the threshold of 20. -/
def readFailStep (st : LoopState) : LoopState :=
  if st.failureCount + 1 ≥ 20 then { st with failureCount := 0 }
  else { st with failureCount := st.failureCount + 1 }

/-- One iteration of the stream loop (lines 967-1073) for camera
`cid` at time `now`.  `readOk` is the `cap.read()` result;
`inference` stands for the whole lock-guarded detection/recognition
block of a sampled tick (lines 1004-1028), which either returns fresh
body boxes and face results or raises; `encodeOk` is the
`cv2.imencode` result.  The detection block is NOT wrapped in its own
try/except, so a raised inference exception escapes the `while` loop
to the handler at line 1074, ending the stream. -/
def streamTick (cid : String) (now : Nat)
    (knownIds : List (String × String)) (readOk : Bool)
    (inference : Except Unit (List Box × List FaceResult))
    (encodeOk : Bool) (st : LoopState) : StreamOutcome :=
  if !readOk then .skipped (readFailStep st)
  else
    let n := st.frameSkip + 1
    let st1 : LoopState := { st with frameSkip := n, failureCount := 0 }
    let st2 : LoopState :=
      if n % 30 = 0 then
        { st1 with
          cameras := (touchCamera cid now st1.cameras st1.cameraLastSeen).1,
          cameraLastSeen :=
            (touchCamera cid now st1.cameras st1.cameraLastSeen).2 }
      else st1
    if n % 3 = 0 then
      match inference with
      | .error _ => .terminated
      | .ok (boxes, faces) =>
        let st4 : LoopState :=
          { st2 with
            lastBodyBoxes := boxes, lastFaceResults := faces,
            attendance := attendanceBlock knownIds cid now st2.cameras
              faces boxes st2.attendance }
        if encodeOk then .yielded st4 else .skipped st4
    else
      if encodeOk then .yielded st2 else .skipped st2

/-- The state a non-terminated outcome continues with. -/
def outState : StreamOutcome → Option LoopState
  | .yielded st => some st
  | .skipped st => some st
  | .terminated => none

/-- A loop state about to process its third frame (a sampled tick). -/
def c5State : LoopState :=
  { frameSkip := 2, failureCount := 0, lastBodyBoxes := [],
    lastFaceResults := [], attendance := [], cameras := [],
    cameraLastSeen := [] }

/-- C5 counterexample: on a sampled frame (the 3rd), an exception
from the detection/recognition block terminates the stream instead of
being treated as an empty detection with the loop continuing. -/
theorem C5_counterexample :
    (2 + 1) % 3 = 0 ∧
    streamTick "CAM-0" 100 [] true (Except.error ()) true c5State =
      .terminated := by
  exact ⟨rfl, rfl⟩

/-- C5 (amended): an exception raised by the detection/recognition
block of a sampled frame is not caught per-sample — it propagates to
the stream-level handler and the stream terminates; only non-sampled
frames (which never consult the engine) and successful inferences
continue the loop. -/
theorem C5_inference_exception_terminates (cid : String) (now : Nat)
    (knownIds : List (String × String)) (encodeOk : Bool)
    (st : LoopState) :
    ((st.frameSkip + 1) % 3 = 0 →
      streamTick cid now knownIds true (Except.error ()) encodeOk st =
        .terminated) ∧
    ((st.frameSkip + 1) % 3 ≠ 0 →
      ∀ inf, streamTick cid now knownIds true inf encodeOk st ≠
        .terminated) ∧
    (∀ boxes faces,
      streamTick cid now knownIds true (Except.ok (boxes, faces))
        encodeOk st ≠ .terminated) := by
  refine ⟨?_, ?_, ?_⟩
  · intro hs
    simp [streamTick, hs]
  · intro hs inf
    cases inf with
    | error e => cases encodeOk <;> simp [streamTick, hs]
    | ok r => cases encodeOk <;> simp [streamTick, hs]
  · intro boxes faces
    by_cases hs : (st.frameSkip + 1) % 3 = 0 <;>
      cases encodeOk <;> simp [streamTick, hs]

/-- Witness for C5's amended theorem at concrete inputs. -/
theorem C5_witness :
    streamTick "CAM-0" 100 [] true (Except.error ()) true c5State =
      .terminated ∧
    streamTick "CAM-0" 100 [] true (Except.error ()) true
      { c5State with frameSkip := 0 } ≠ .terminated ∧
    streamTick "CAM-0" 100 [] true (Except.ok ([], [])) true c5State ≠
      .terminated :=
  ⟨(C5_inference_exception_terminates "CAM-0" 100 [] true c5State).1
     (by decide),
   (C5_inference_exception_terminates "CAM-0" 100 [] true
     { c5State with frameSkip := 0 }).2.1 (by decide) (Except.error ()),
   (C5_inference_exception_terminates "CAM-0" 100 [] true c5State).2.2
     [] []⟩

theorem touchCamera_lastSeen (cid : String) (now : Nat)
    (cams : List (String × CameraConfig)) (ls : List (String × Nat)) :
    alook cid (touchCamera cid now cams ls).2 = some now := by
  unfold touchCamera
  by_cases hc : (alook cid cams).isSome
  · rw [if_pos hc]
    dsimp only
    by_cases hl : (alook cid ls).isSome
    · rw [if_pos hl, alook_amod_self]
      obtain ⟨v, hv⟩ := Option.isSome_iff_exists.mp hl
      rw [hv]
      rfl
    · rw [if_neg hl,
        alook_append_of_none cid ls _ (Option.not_isSome_iff_eq_none.mp hl)]
      simp [alook]
  · rw [if_neg hc]
    dsimp only
    by_cases hl : (alook cid ls).isSome
    · rw [if_pos hl, alook_amod_self]
      obtain ⟨v, hv⟩ := Option.isSome_iff_exists.mp hl
      rw [hv]
      rfl
    · rw [if_neg hl,
        alook_append_of_none cid ls _ (Option.not_isSome_iff_eq_none.mp hl)]
      simp [alook]

/-- A loop state with one registered camera last seen at time 0. -/
def c9State : LoopState :=
  { frameSkip := 2, failureCount := 0, lastBodyBoxes := [],
    lastFaceResults := [], attendance := [],
    cameras := [("CAM-0", sampleCamera)],
    cameraLastSeen := [("CAM-0", 0)] }

/-- C9 counterexample: the 3rd frame is a sampled tick, yet the
health-monitor touch does not run — the camera's last-seen timestamp
stays 0 instead of becoming the tick time 50; the loop touches only
on the 30-frame cadence. -/
theorem C9_counterexample :
    (2 + 1) % 3 = 0 ∧
    streamTick "CAM-0" 50 [] true (Except.ok ([], [])) true c9State =
      .yielded { c9State with frameSkip := 3 } ∧
    alook "CAM-0"
        ({ c9State with frameSkip := 3 } : LoopState).cameraLastSeen =
      some 0 ∧
    some (0 : Nat) ≠ some 50 := by
  refine ⟨rfl, ?_, rfl, by decide⟩
  rfl

/-- C9 (amended): within the stream loop, the health-monitor touch
(`_update_camera_status`) runs exactly when the incremented frame
counter is divisible by 30 — not on every sampled tick; since 3
divides 30, every touch happens to fall on a sampled tick, but the
other sampled ticks leave the last-seen timestamp unchanged. -/
theorem C9_touch_cadence (cid : String) (now : Nat)
    (knownIds : List (String × String)) (boxes : List Box)
    (faces : List FaceResult) (encodeOk : Bool) (st : LoopState) :
    (∀ st', outState (streamTick cid now knownIds true
          (Except.ok (boxes, faces)) encodeOk st) = some st' →
      alook cid st'.cameraLastSeen =
        (if (st.frameSkip + 1) % 30 = 0 then some now
         else alook cid st.cameraLastSeen)) ∧
    ((st.frameSkip + 1) % 30 = 0 → (st.frameSkip + 1) % 3 = 0) := by
  constructor
  · intro st' hst
    by_cases h30 : (st.frameSkip + 1) % 30 = 0
    · rw [if_pos h30]
      by_cases h3 : (st.frameSkip + 1) % 3 = 0 <;>
        cases encodeOk <;>
        · simp only [streamTick, Bool.not_true, Bool.false_eq_true,
            if_false, h30, if_true, h3, outState] at hst
          cases hst
          exact touchCamera_lastSeen cid now _ _
    · rw [if_neg h30]
      by_cases h3 : (st.frameSkip + 1) % 3 = 0 <;>
        cases encodeOk <;>
        · simp only [streamTick, Bool.not_true, Bool.false_eq_true,
            if_false, h30, if_true, h3, outState] at hst
          cases hst
          rfl
  · intro h30
    omega

/-- A loop state about to process its 30th frame. -/
def c9Touch : LoopState := { c9State with frameSkip := 29 }

/-- The state after the 30th tick: touched at time 77. -/
def c9Expected : LoopState :=
  { frameSkip := 30, failureCount := 0, lastBodyBoxes := [],
    lastFaceResults := [], attendance := [],
    cameras := [("CAM-0", sampleCamera)],
    cameraLastSeen := [("CAM-0", 77)] }

/-- Witness for C9's amended theorem at a concrete input. -/
theorem C9_witness :
    alook "CAM-0" c9Expected.cameraLastSeen =
      (if (c9Touch.frameSkip + 1) % 30 = 0 then some 77
       else alook "CAM-0" c9Touch.cameraLastSeen) ∧
    ((c9Touch.frameSkip + 1) % 30 = 0 → (c9Touch.frameSkip + 1) % 3 = 0) :=
  ⟨(C9_touch_cadence "CAM-0" 77 [] [] [] true c9Touch).1 c9Expected
     (by decide),
   (C9_touch_cadence "CAM-0" 77 [] [] [] true c9Touch).2⟩

/-! ### `PATCH /alerts/{alert_id}` -/

/-- The field updates `update_alert` (lines 1287-1297) applies to the
matched alert: any truthy (non-empty) `status_update` overwrites the
status unconditionally; any truthy `acknowledged_by` stamps the
acknowledger and the acknowledgement time.  `none` and `""` (falsy in
Python) leave the fields unchanged. -/
def applyAlertUpdate (statusUpdate acknowledgedBy : Option String)
    (now : Nat) (a : Alert) : Alert :=
  let a1 := match statusUpdate with
    | some s => if s ≠ "" then { a with status := s } else a
    | none => a
  match acknowledgedBy with
  | some b =>
    if b ≠ "" then
      { a1 with acknowledgedBy := some b, acknowledgedAt := some now }
    else a1
  | none => a1

/-- `update_alert` (lines 1287-1297): linear scan for the first alert
with the given id, mutate it in place and return; `none` models the
404 when no alert matches. -/
def updateAlert (alertId : String)
    (statusUpdate acknowledgedBy : Option String) (now : Nat) :
    List Alert → Option (List Alert)
  | [] => none
  | a :: rest =>
    if a.id = alertId then
      some (applyAlertUpdate statusUpdate acknowledgedBy now a :: rest)
    else
      (updateAlert alertId statusUpdate acknowledgedBy now rest).map
        (fun l => a :: l)

/-- The forward order of the claimed alert state machine. -/
def statusRank : String → Nat
  | "active" => 0
  | "acknowledged" => 1
  | "resolved" => 2
  | _ => 3

/-- A resolved alert, supposedly terminal. -/
def resolvedAlert : Alert :=
  { id := "a1", title := "t", description := "d", severity := "low",
    category := "system", status := "resolved", timestamp := 0,
    acknowledgedBy := none, acknowledgedAt := none, location := none,
    cameraId := none }

/-- C6 counterexample: `PATCH /alerts` moves a `resolved` alert back
to `active` — a backward transition the claimed state machine
forbids. -/
theorem C6_counterexample :
    updateAlert "a1" (some "active") none 5 [resolvedAlert] =
      some [{ resolvedAlert with status := "active" }] ∧
    statusRank "active" < statusRank "resolved" := by
  constructor
  · rfl
  · decide

/-- C6 (amended): `update_alert` enforces no state machine: it sets
the first matching alert's status to any non-empty provided value
regardless of the current status (so backward moves such as
`resolved -> active` go through and `resolved` is not terminal), it
independently stamps `acknowledgedBy`/`acknowledgedAt` whenever a
non-empty acknowledger is provided (a status can also be set to
`acknowledged` without any acknowledger), and it leaves the remaining
alerts untouched. -/
theorem C6_patch_no_state_machine (alertId s b : String) (now : Nat)
    (a : Alert) (rest : List Alert)
    (hid : a.id = alertId) (hs : s ≠ "") (hb : b ≠ "") :
    updateAlert alertId (some s) (some b) now (a :: rest) =
      some ({ a with
                status := s
                acknowledgedBy := some b
                acknowledgedAt := some now } :: rest) ∧
    updateAlert alertId (some s) none now (a :: rest) =
      some ({ a with status := s } :: rest) ∧
    updateAlert alertId none (some b) now (a :: rest) =
      some ({ a with
                acknowledgedBy := some b
                acknowledgedAt := some now } :: rest) ∧
    updateAlert alertId none none now (a :: rest) = some (a :: rest) := by
  refine ⟨?_, ?_, ?_, ?_⟩ <;>
    simp [updateAlert, applyAlertUpdate, hid, hs, hb]

/-- Witness for C6's amended theorem at a concrete input. -/
theorem C6_witness :
    (resolvedAlert.id = "a1" ∧ "active" ≠ "" ∧ "admin" ≠ "") ∧
    updateAlert "a1" (some "active") (some "admin") 5 [resolvedAlert] =
      some [{ resolvedAlert with
                status := "active"
                acknowledgedBy := some "admin"
                acknowledgedAt := some 5 }] :=
  ⟨⟨rfl, by decide, by decide⟩,
   (C6_patch_no_state_machine "a1" "active" "admin" 5 resolvedAlert []
     rfl (by decide) (by decide)).1⟩

/-! ### Camera open procedures -/

/-- The OpenCV backends the code distinguishes (`cv2.CAP_DSHOW`,
`cv2.CAP_V4L2`, `cv2.CAP_GSTREAMER`); `none` in a backend list stands
for `cv2.VideoCapture(idx)` with the default backend. -/
inductive CamBackend where
  | dshow
  | v4l2
  | gstreamer
deriving DecidableEq

/-- Platform-preferred backend priority lists (lines 889-893 and
836-840). -/
def platformBackends (isWindows : Bool) : List (Option CamBackend) :=
  if isWindows then [some .dshow, none]
  else [some .v4l2, some .gstreamer, none]

/-- The camera environment: whether each (index, backend) attempt
raises, whether the handle reports opened, and whether a real frame
can be read from it. -/
structure CamWorld where
  raises : Nat → Option CamBackend → Bool
  isOpened : Nat → Option CamBackend → Bool
  readOk : Nat → Option CamBackend → Bool

/-- A successful open attempt: no exception, `isOpened()` and a real
frame read. -/
def attemptOk (w : CamWorld) (idx : Nat) (b : Option CamBackend) : Bool :=
  !w.raises idx b && (w.isOpened idx b && w.readOk idx b)

/-- The backend loop shared by both openers (lines 843-866 and
896-912): try each backend in order; an exception is caught and the
next candidate tried; success requires `isOpened()` plus a real frame
read; a non-raising failed attempt releases its capture handle (the
second component collects the released attempts). -/
def tryBackends (w : CamWorld) (idx : Nat) :
    List (Option CamBackend) →
      Option (Option CamBackend) × List (Option CamBackend)
  | [] => (none, [])
  | b :: bs =>
    if w.raises idx b then tryBackends w idx bs
    else if w.isOpened idx b && w.readOk idx b then (some b, [])
    else
      ((tryBackends w idx bs).1, b :: (tryBackends w idx bs).2)

/-- `_open_video_capture_by_index` (lines 885-914): try the platform
backends for the requested index only; `none` models the
`RuntimeError` raised when every backend fails — there is no fallback
across other indices here. -/
def openVideoCaptureByIndex (w : CamWorld) (isWindows : Bool)
    (idx : Nat) : Option (Option CamBackend) :=
  (tryBackends w idx (platformBackends isWindows)).1

/-- The index fallback loop of `_open_video_capture` (lines 868-881):
scan indices with the default backend, requiring a real frame. -/
def fallbackScan (w : CamWorld) : List Nat → Option Nat
  | [] => none
  | i :: is => if attemptOk w i none then some i else fallbackScan w is

inductive OpenResult where
  | viaSource (src : String)
  | cam (idx : Nat) (backend : Option CamBackend)
  | failed
deriving DecidableEq

/-- `_open_video_capture` minus the `CAMERA_SOURCE` branch
(lines 831-883): platform backends for the env-configured base index,
then the bounded fallback across indices 0..5, then `RuntimeError`. -/
def openVideoCaptureRest (w : CamWorld) (isWindows : Bool)
    (baseIdx : Nat) : OpenResult :=
  match (tryBackends w baseIdx (platformBackends isWindows)).1 with
  | some b => .cam baseIdx b
  | none =>
    match fallbackScan w [0, 1, 2, 3, 4, 5] with
    | some i => .cam i none
    | none => .failed

/-- `_open_video_capture` (lines 820-883): the `CAMERA_SOURCE` path
(which checks only `isOpened()`, no frame read) followed by the
index-based procedure. -/
def openVideoCapture (w : CamWorld) (sourceOpens : String → Bool)
    (isWindows : Bool) (sourceEnv : Option String) (baseIdx : Nat) :
    OpenResult :=
  match sourceEnv with
  | some src =>
    if sourceOpens src then .viaSource src
    else openVideoCaptureRest w isWindows baseIdx
  | none => openVideoCaptureRest w isWindows baseIdx

theorem tryBackends_sound (w : CamWorld) (idx : Nat) :
    ∀ (bs : List (Option CamBackend)) (b : Option CamBackend),
    (tryBackends w idx bs).1 = some b →
    b ∈ bs ∧ attemptOk w idx b = true
  | [], b => by intro h; cases h
  | c :: bs, b => by
    intro h
    unfold tryBackends at h
    by_cases hr : w.raises idx c = true
    · rw [if_pos hr] at h
      obtain ⟨hm, ha⟩ := tryBackends_sound w idx bs b h
      exact ⟨List.mem_cons_of_mem c hm, ha⟩
    · rw [if_neg hr] at h
      by_cases ho : (w.isOpened idx c && w.readOk idx c) = true
      · rw [if_pos ho] at h
        dsimp only at h
        cases h
        refine ⟨List.mem_cons_self c bs, ?_⟩
        rw [Bool.not_eq_true] at hr
        simp [attemptOk, hr, ho]
      · rw [if_neg ho] at h
        dsimp only at h
        obtain ⟨hm, ha⟩ := tryBackends_sound w idx bs b h
        exact ⟨List.mem_cons_of_mem c hm, ha⟩

theorem tryBackends_complete (w : CamWorld) (idx : Nat) :
    ∀ (bs : List (Option CamBackend)),
    (tryBackends w idx bs).1 = none →
    ∀ b ∈ bs, attemptOk w idx b = false
  | [] => by intro _ b hb; cases hb
  | c :: bs => by
    intro h b hb
    unfold tryBackends at h
    by_cases hr : w.raises idx c = true
    · rw [if_pos hr] at h
      rcases List.mem_cons.mp hb with rfl | hb2
      · simp [attemptOk, hr]
      · exact tryBackends_complete w idx bs h b hb2
    · rw [if_neg hr] at h
      by_cases ho : (w.isOpened idx c && w.readOk idx c) = true
      · rw [if_pos ho] at h
        cases h
      · rw [if_neg ho] at h
        dsimp only at h
        rcases List.mem_cons.mp hb with rfl | hb2
        · rw [Bool.not_eq_true] at ho
          simp [attemptOk, ho]
        · exact tryBackends_complete w idx bs h b hb2

theorem tryBackends_released (w : CamWorld) (idx : Nat) :
    ∀ (bs : List (Option CamBackend)) (b : Option CamBackend),
    b ∈ (tryBackends w idx bs).2 →
    w.raises idx b = false ∧ (w.isOpened idx b && w.readOk idx b) = false
  | [], b => by intro h; cases h
  | c :: bs, b => by
    intro h
    unfold tryBackends at h
    by_cases hr : w.raises idx c = true
    · rw [if_pos hr] at h
      exact tryBackends_released w idx bs b h
    · rw [if_neg hr] at h
      by_cases ho : (w.isOpened idx c && w.readOk idx c) = true
      · rw [if_pos ho] at h
        cases h
      · rw [if_neg ho] at h
        dsimp only at h
        rcases List.mem_cons.mp h with rfl | h2
        · rw [Bool.not_eq_true] at hr ho
          exact ⟨hr, ho⟩
        · exact tryBackends_released w idx bs b h2

theorem fallbackScan_sound (w : CamWorld) :
    ∀ (idxs : List Nat) (i : Nat), fallbackScan w idxs = some i →
    i ∈ idxs ∧ attemptOk w i none = true
  | [], i => by intro h; cases h
  | j :: idxs, i => by
    intro h
    unfold fallbackScan at h
    by_cases ha : attemptOk w j none = true
    · rw [if_pos ha] at h
      cases h
      exact ⟨List.mem_cons_self j idxs, ha⟩
    · rw [if_neg ha] at h
      obtain ⟨hm, hok⟩ := fallbackScan_sound w idxs i h
      exact ⟨List.mem_cons_of_mem j hm, hok⟩

theorem fallbackScan_complete (w : CamWorld) :
    ∀ (idxs : List Nat), fallbackScan w idxs = none →
    ∀ i ∈ idxs, attemptOk w i none = false
  | [] => by intro _ i hi; cases hi
  | j :: idxs => by
    intro h i hi
    unfold fallbackScan at h
    by_cases ha : attemptOk w j none = true
    · rw [if_pos ha] at h
      cases h
    · rw [if_neg ha] at h
      rcases List.mem_cons.mp hi with rfl | hi2
      · rw [Bool.not_eq_true] at ha
        exact ha
      · exact fallbackScan_complete w idxs h i hi2

/-- The world of the C7 counterexample: only index 0 with the default
backend yields a readable frame. -/
def c7World : CamWorld :=
  { raises := fun _ _ => false,
    isOpened := fun i b => decide (i = 0) && decide (b = none),
    readOk := fun i b => decide (i = 0) && decide (b = none) }

/-- C7 counterexample: the per-index opener used by
`/video_feed/{camera_index}` raises when the requested index 2 fails
on every backend, even though the 0..5 fallback (performed only by
the env-configured `_open_video_capture`) would have found the
working index 0 — so "the camera open operation for a requested
camera index ... falls back across 0..5" is false of
`_open_video_capture_by_index`. -/
theorem C7_counterexample :
    openVideoCaptureByIndex c7World false 2 = none ∧
    attemptOk c7World 0 none = true ∧
    openVideoCapture c7World (fun _ => false) false none 2 =
      .cam 0 none := by
  refine ⟨rfl, by decide, rfl⟩

/-- C7 (amended): both openers try the platform-preferred backends in
priority order and report success only after reading a real frame
from the opened handle, releasing every opened-but-unreadable
attempt; but only the env-configured opener `_open_video_capture`
falls back across the bounded index range 0..5 when the requested
index fails — `_open_video_capture_by_index` raises immediately, with
no index fallback. -/
theorem C7_camera_open (w : CamWorld) (isWindows : Bool)
    (idx baseIdx : Nat) :
    (∀ b, openVideoCaptureByIndex w isWindows idx = some b →
       b ∈ platformBackends isWindows ∧ attemptOk w idx b = true) ∧
    (openVideoCaptureByIndex w isWindows idx = none →
       ∀ b ∈ platformBackends isWindows, attemptOk w idx b = false) ∧
    (∀ b ∈ (tryBackends w idx (platformBackends isWindows)).2,
       w.raises idx b = false ∧
         (w.isOpened idx b && w.readOk idx b) = false) ∧
    (∀ i bb, openVideoCaptureRest w isWindows baseIdx = .cam i bb →
       (i = baseIdx ∧ bb ∈ platformBackends isWindows ∧
          attemptOk w i bb = true) ∨
       (bb = none ∧ i ∈ [0, 1, 2, 3, 4, 5] ∧
          attemptOk w i none = true)) ∧
    (openVideoCaptureRest w isWindows baseIdx = .failed →
       (∀ b ∈ platformBackends isWindows,
          attemptOk w baseIdx b = false) ∧
       (∀ i ∈ [0, 1, 2, 3, 4, 5], attemptOk w i none = false)) := by
  refine ⟨?_, ?_, ?_, ?_, ?_⟩
  · intro b h
    obtain ⟨hm, ha⟩ := tryBackends_sound w idx _ b h
    exact ⟨hm, ha⟩
  · intro h b hb
    exact tryBackends_complete w idx _ h b hb
  · intro b hb
    exact tryBackends_released w idx _ b hb
  · intro i bb h
    unfold openVideoCaptureRest at h
    cases htb : (tryBackends w baseIdx (platformBackends isWindows)).1 with
    | some b2 =>
      rw [htb] at h
      cases h
      obtain ⟨hm, ha⟩ := tryBackends_sound w baseIdx _ _ htb
      exact Or.inl ⟨rfl, hm, ha⟩
    | none =>
      rw [htb] at h
      cases hfs : fallbackScan w [0, 1, 2, 3, 4, 5] with
      | some j =>
        rw [hfs] at h
        cases h
        obtain ⟨hm, ha⟩ := fallbackScan_sound w _ _ hfs
        exact Or.inr ⟨rfl, hm, ha⟩
      | none =>
        rw [hfs] at h
        cases h
  · intro h
    unfold openVideoCaptureRest at h
    cases htb : (tryBackends w baseIdx (platformBackends isWindows)).1 with
    | some b2 => rw [htb] at h; cases h
    | none =>
      rw [htb] at h
      cases hfs : fallbackScan w [0, 1, 2, 3, 4, 5] with
      | some j => rw [hfs] at h; cases h
      | none =>
        exact ⟨tryBackends_complete w baseIdx _ htb,
          fallbackScan_complete w _ hfs⟩

/-- Witness for C7's amended theorem at a concrete world. -/
theorem C7_witness :
    ((none : Option CamBackend) ∈ platformBackends false ∧
      attemptOk c7World 0 none = true) ∧
    (∀ b ∈ platformBackends false, attemptOk c7World 2 b = false) :=
  ⟨(C7_camera_open c7World false 0 0).1 none (by decide),
   (C7_camera_open c7World false 2 0).2.1 (by decide)⟩

/-! ### Mutual exclusion on the shared detection engine -/

/-- Program counter of one stream with respect to the shared
detection engine: outside any engine call, waiting to acquire
`_detector_lock`, or inside a lock-guarded engine call.  Every
`detect` / `detect_faces` / `recognize_faces` call site reachable
from concurrent streams sits inside a `with _detector_lock:` block
(backend.py lines 1009, 1023, 1113, 1152, 1164). -/
inductive StreamPC where
  | outside
  | waiting
  | inCall
deriving DecidableEq

/-- Global interleaving state of `n` concurrent camera streams
sharing the single `_detector_lock`. -/
structure MutexState (n : Nat) where
  pc : Fin n → StreamPC
  owner : Option (Fin n)

/-- Interleaving semantics of the lock discipline: a stream may reach
an engine call site (request), acquire the free lock and enter the
call, or finish the call and release.  Entering a call requires
holding the lock, because every call site is inside
`with _detector_lock`. -/
inductive MutexStep (n : Nat) : MutexState n → MutexState n → Prop where
  | request (s : MutexState n) (i : Fin n) :
      s.pc i = .outside →
      MutexStep n s { pc := Function.update s.pc i .waiting,
                      owner := s.owner }
  | acquire (s : MutexState n) (i : Fin n) :
      s.pc i = .waiting → s.owner = none →
      MutexStep n s { pc := Function.update s.pc i .inCall,
                      owner := some i }
  | release (s : MutexState n) (i : Fin n) :
      s.pc i = .inCall →
      MutexStep n s { pc := Function.update s.pc i .outside,
                      owner := none }

/-- Initially no stream is in a call and the lock is free. -/
def mutexInit (n : Nat) : MutexState n :=
  { pc := fun _ => .outside, owner := none }

def MutexReachable (n : Nat) (s : MutexState n) : Prop :=
  Relation.ReflTransGen (MutexStep n) (mutexInit n) s

/-- Lock-ownership invariant: a stream inside an engine call holds
the lock. -/
def mutexInv (n : Nat) (s : MutexState n) : Prop :=
  ∀ i : Fin n, s.pc i = .inCall → s.owner = some i

theorem mutexInv_init (n : Nat) : mutexInv n (mutexInit n) := by
  intro i h
  simp [mutexInit] at h

theorem mutexInv_step (n : Nat) (s s' : MutexState n) (hs : mutexInv n s)
    (hstep : MutexStep n s s') : mutexInv n s' := by
  cases hstep with
  | request i hpc =>
    intro j hj
    by_cases hij : j = i
    · subst hij
      dsimp only at hj
      rw [Function.update_same] at hj
      cases hj
    · dsimp only at hj
      rw [Function.update_noteq hij] at hj
      exact hs j hj
  | acquire i hpc hown =>
    intro j hj
    by_cases hij : j = i
    · subst hij
      rfl
    · dsimp only at hj
      rw [Function.update_noteq hij] at hj
      have := hs j hj
      rw [hown] at this
      cases this
  | release i hpc =>
    intro j hj
    by_cases hij : j = i
    · subst hij
      dsimp only at hj
      rw [Function.update_same] at hj
      cases hj
    · dsimp only at hj
      rw [Function.update_noteq hij] at hj
      have h1 := hs j hj
      have h2 := hs i hpc
      rw [h1] at h2
      cases h2
      exact absurd rfl hij

theorem mutexInv_reachable (n : Nat) (s : MutexState n)
    (h : MutexReachable n s) : mutexInv n s := by
  induction h with
  | refl => exact mutexInv_init n
  | tail _ hstep ih => exact mutexInv_step n _ _ ih hstep

/-- C8: mutual exclusion on the shared detection engine — in every
reachable interleaving of `n` concurrent camera streams, at most one
stream is inside a body/face inference call, because every call site
executes while holding the single engine-wide `_detector_lock`; all
inference results are therefore produced under some serialized order
of the engine calls. -/
theorem C8_engine_calls_serialized (n : Nat) (s : MutexState n)
    (h : MutexReachable n s) (i j : Fin n)
    (hi : s.pc i = .inCall) (hj : s.pc j = .inCall) : i = j := by
  have hinv := mutexInv_reachable n s h
  have h1 := hinv i hi
  have h2 := hinv j hj
  rw [h1] at h2
  exact Option.some.inj h2

/-- An intermediate state: stream 0 of 4 is waiting for the lock. -/
def mutexMid : MutexState 4 :=
  { pc := Function.update (fun _ => StreamPC.outside) 0 .waiting,
    owner := none }

/-- Stream 0 of 4 inside an engine call, holding the lock. -/
def mutexExampleState : MutexState 4 :=
  { pc := Function.update mutexMid.pc 0 .inCall, owner := some 0 }

theorem mutexExampleState_reachable :
    MutexReachable 4 mutexExampleState :=
  Relation.ReflTransGen.tail
    (Relation.ReflTransGen.tail Relation.ReflTransGen.refl
      (MutexStep.request (mutexInit 4) 0 rfl))
    (MutexStep.acquire mutexMid 0 (by simp [mutexMid]) rfl)

/-- Witness for C8 at a concrete reachable state of 4 streams. -/
theorem C8_witness :
    MutexReachable 4 mutexExampleState ∧
    mutexExampleState.pc 0 = .inCall ∧
    (0 : Fin 4) = 0 :=
  ⟨mutexExampleState_reachable,
   by simp [mutexExampleState],
   C8_engine_calls_serialized 4 mutexExampleState
     mutexExampleState_reachable 0 0
     (by simp [mutexExampleState]) (by simp [mutexExampleState])⟩

/-! ### `FaceRecognizer.recognize_faces` -/

/-- Abstract hooks for the `face_recognition` library calls made by
`FaceRecognizer.recognize_faces`: locating faces, computing
encodings, boolean match tests and distances.  Frames and encodings
are opaque tokens; face locations are `(top, right, bottom, left)`
tuples; distances are naturals (only their order matters). -/
structure FaceOracle where
  faceLocations : Nat → List (Nat × Nat × Nat × Nat)
  faceEncodings : Nat → List (Nat × Nat × Nat × Nat) → List Nat
  compareFaces : List Nat → Nat → List Bool
  faceDistance : List Nat → Nat → List Nat

/-- First index of the minimum (numpy `argmin`). -/
def argminIdx : List Nat → Nat
  | [] => 0
  | [_] => 0
  | x :: y :: rest =>
    if (y :: rest).getD (argminIdx (y :: rest)) 0 < x then
      argminIdx (y :: rest) + 1
    else 0

/-- `FaceRecognizer.recognize_faces` (lines 539-564): use the
supplied face locations (or locate them in the frame); when there are
no locations or no known encodings, label every location `"Unknown"`
without computing encodings; otherwise encode each located face and
match it against the known encodings by first-minimum distance,
accepting the name only when `compare_faces` also matched at that
index. -/
def recognizeFaces (o : FaceOracle) (knownEncodings : List Nat)
    (knownNames : List String) (frame : Nat)
    (faceLocations? : Option (List (Nat × Nat × Nat × Nat))) :
    List ((Nat × Nat × Nat × Nat) × String) :=
  let locs := match faceLocations? with
    | some ls => ls
    | none => o.faceLocations frame
  if locs = [] ∨ knownEncodings = [] then
    locs.map (fun loc => (loc, "Unknown"))
  else
    (locs.zip (o.faceEncodings frame locs)).map (fun le =>
      let dists := o.faceDistance knownEncodings le.2
      (le.1,
       if dists.length > 0 then
         if (o.compareFaces knownEncodings le.2).getD
             (argminIdx dists) false then
           knownNames.getD (argminIdx dists) "Unknown"
         else "Unknown"
       else "Unknown"))

/-- C10: with no known face encodings, `recognize_faces` returns
exactly one result per supplied location, each labelled `"Unknown"`,
without consulting the encoding/compare/distance hooks (the result is
identical under any other oracle) and without failing. -/
theorem C10_unknown_when_no_encodings (o o₂ : FaceOracle)
    (knownNames : List String) (frame : Nat)
    (locs : List (Nat × Nat × Nat × Nat)) (hne : locs ≠ []) :
    recognizeFaces o [] knownNames frame (some locs) =
      locs.map (fun loc => (loc, "Unknown")) ∧
    (recognizeFaces o [] knownNames frame (some locs)).length =
      locs.length ∧
    (∀ r ∈ recognizeFaces o [] knownNames frame (some locs),
      r.2 = "Unknown") ∧
    recognizeFaces o [] knownNames frame (some locs) =
      recognizeFaces o₂ [] knownNames frame (some locs) := by
  have key : ∀ oo : FaceOracle,
      recognizeFaces oo [] knownNames frame (some locs) =
        locs.map (fun loc => (loc, "Unknown")) := by
    intro oo
    unfold recognizeFaces
    rw [if_pos (Or.inr rfl)]
  refine ⟨key o, ?_, ?_, ?_⟩
  · rw [key o, List.length_map]
  · intro r hr
    rw [key o] at hr
    obtain ⟨loc, _, rfl⟩ := List.mem_map.mp hr
    rfl
  · rw [key o, key o₂]

/-- A trivial oracle and a conflicting one, used to witness that the
early-return path consults neither. -/
def faceOracleA : FaceOracle :=
  { faceLocations := fun _ => [], faceEncodings := fun _ _ => [],
    compareFaces := fun _ _ => [], faceDistance := fun _ _ => [] }

def faceOracleB : FaceOracle :=
  { faceLocations := fun _ => [(9, 9, 9, 9)],
    faceEncodings := fun _ ls => ls.map (fun _ => 7),
    compareFaces := fun ks _ => ks.map (fun _ => true),
    faceDistance := fun ks _ => ks.map (fun _ => 1) }

/-- Witness for C10 at a concrete input. -/
theorem C10_witness :
    ([((0, 0, 1, 1) : Nat × Nat × Nat × Nat)] ≠ []) ∧
    recognizeFaces faceOracleA [] ["Alice"] 0 (some [(0, 0, 1, 1)]) =
      [((0, 0, 1, 1), "Unknown")] ∧
    recognizeFaces faceOracleA [] ["Alice"] 0 (some [(0, 0, 1, 1)]) =
      recognizeFaces faceOracleB [] ["Alice"] 0 (some [(0, 0, 1, 1)]) :=
  ⟨by decide,
   by
     rw [(C10_unknown_when_no_encodings faceOracleA faceOracleB ["Alice"] 0
       [(0, 0, 1, 1)] (by decide)).1]
     rfl,
   (C10_unknown_when_no_encodings faceOracleA faceOracleB ["Alice"] 0
     [(0, 0, 1, 1)] (by decide)).2.2.2⟩

end LexVision
